import Mathlib

/-!
Shallow embedding of the Tetris game engine in `src/game.rs`
(repository alerighi/tetris-rust), together with proofs checking the
natural-language specification against it.

Conventions of the embedding:
* machine integers (`i32`) are modelled as `Int`; `usize` indices as `Nat`.
  Every arithmetic operation the Rust code performs on values that stay in
  range is translated literally; casts `as usize` of values the code has
  already checked to be nonnegative become `Int.toNat`.
* the playfield `[[FieldCell; 10]; 22]` is modelled as a total function
  `Nat → Nat → FieldCell`; the Rust code only ever reads or writes indices
  `y < 22, x < 10` (each access is behind a bounds check or follows from the
  piece-position invariants), so the values outside that window are inert.
* the global random source (`rand::prelude::random::<u64>() % 7`) is
  modelled as an infinite sequence `rand : Nat → Nat` of draws carried in the
  state together with a cursor `randIdx`; each call of `Piece::random`
  consumes one draw.
* the one floating-point expression of the engine,
  `800 * 0.9f32.powi(level).round() as i32` in `timer_reset`, is modelled
  over `ℚ`: see the comment on `delayFormula`.
-/

namespace Tetris

def GAME_WIDTH : Nat := 10

def GAME_HEIGHT : Nat := 22

/-- The seven piece shapes of `enum PieceShape`, discriminants 0..6. -/
inductive PieceShape where
  | I | O | L | J | T | S | Z
deriving DecidableEq, Repr

/-- Discriminant of a `PieceShape`, as used to index the `TETRIS` table. -/
def PieceShape.idx : PieceShape → Nat
  | .I => 0
  | .O => 1
  | .L => 2
  | .J => 3
  | .T => 4
  | .S => 5
  | .Z => 6

/-- The four rotation states of `enum PieceRotation`; the source fixes the
discriminants NORMAL = 0, LEFT = 1, REVERSE = 2, RIGHT = 3. -/
inductive PieceRotation where
  | NORMAL | LEFT | REVERSE | RIGHT
deriving DecidableEq, Repr

/-- Discriminant of a `PieceRotation`, indexing the `TETRIS` table. -/
def PieceRotation.idx : PieceRotation → Nat
  | .NORMAL => 0
  | .LEFT => 1
  | .REVERSE => 2
  | .RIGHT => 3

/-- `enum Direction`. -/
inductive Direction where
  | DOWN | LEFT | RIGHT
deriving DecidableEq, Repr

/-- `struct Point`: board coordinates, `i32` fields modelled as `Int`. -/
structure Point where
  x : Int
  y : Int
deriving DecidableEq, Repr

/-- `Point::moved`. -/
def Point.moved (p : Point) : Direction → Point
  | .DOWN => { x := p.x, y := p.y + 1 }
  | .LEFT => { x := p.x - 1, y := p.y }
  | .RIGHT => { x := p.x + 1, y := p.y }

/-- `PIECE_SPAWN_POSITION`: `y = 0, x = GAME_WIDTH / 2 - 2 = 3`. -/
def PIECE_SPAWN_POSITION : Point := { y := 0, x := (GAME_WIDTH : Int) / 2 - 2 }

/-- `struct Piece`. -/
structure Piece where
  shape : PieceShape
  rotation : PieceRotation
  position : Point
deriving DecidableEq, Repr

/-- The static shape table `TETRIS`, transcribed literally from the source:
7 shapes × 4 rotations × 4 rows × 4 columns of `u8` occupancy flags. -/
def TETRIS : List (List (List (List Nat))) := [
  [ -- I
    [[1,0,0,0],[1,0,0,0],[1,0,0,0],[1,0,0,0]],
    [[1,1,1,1],[0,0,0,0],[0,0,0,0],[0,0,0,0]],
    [[1,0,0,0],[1,0,0,0],[1,0,0,0],[1,0,0,0]],
    [[1,1,1,1],[0,0,0,0],[0,0,0,0],[0,0,0,0]]],
  [ -- O
    [[1,1,0,0],[1,1,0,0],[0,0,0,0],[0,0,0,0]],
    [[1,1,0,0],[1,1,0,0],[0,0,0,0],[0,0,0,0]],
    [[1,1,0,0],[1,1,0,0],[0,0,0,0],[0,0,0,0]],
    [[1,1,0,0],[1,1,0,0],[0,0,0,0],[0,0,0,0]]],
  [ -- L
    [[1,1,0,0],[1,0,0,0],[1,0,0,0],[0,0,0,0]],
    [[1,1,1,0],[0,0,1,0],[0,0,0,0],[0,0,0,0]],
    [[0,1,0,0],[0,1,0,0],[1,1,0,0],[0,0,0,0]],
    [[1,0,0,0],[1,1,1,0],[0,0,0,0],[0,0,0,0]]],
  [ -- J
    [[1,1,0,0],[0,1,0,0],[0,1,0,0],[0,0,0,0]],
    [[0,0,1,0],[1,1,1,0],[0,0,0,0],[0,0,0,0]],
    [[1,0,0,0],[1,0,0,0],[1,1,0,0],[0,0,0,0]],
    [[1,1,1,0],[1,0,0,0],[0,0,0,0],[0,0,0,0]]],
  [ -- T
    [[0,1,0,0],[1,1,1,0],[0,0,0,0],[0,0,0,0]],
    [[1,0,0,0],[1,1,0,0],[1,0,0,0],[0,0,0,0]],
    [[1,1,1,0],[0,1,0,0],[0,0,0,0],[0,0,0,0]],
    [[0,1,0,0],[1,1,0,0],[0,1,0,0],[0,0,0,0]]],
  [ -- S
    [[0,1,0,0],[1,1,0,0],[1,0,0,0],[0,0,0,0]],
    [[1,1,0,0],[0,1,1,0],[0,0,0,0],[0,0,0,0]],
    [[0,1,0,0],[1,1,0,0],[1,0,0,0],[0,0,0,0]],
    [[1,1,0,0],[0,1,1,0],[0,0,0,0],[0,0,0,0]]],
  [ -- Z
    [[1,0,0,0],[1,1,0,0],[0,1,0,0],[0,0,0,0]],
    [[0,1,1,0],[1,1,0,0],[0,0,0,0],[0,0,0,0]],
    [[1,0,0,0],[1,1,0,0],[0,1,0,0],[0,0,0,0]],
    [[0,1,1,0],[1,1,0,0],[0,0,0,0],[0,0,0,0]]]]

/-- `Piece::with_rotation`. -/
def Piece.with_rotation (p : Piece) (rotation : PieceRotation) : Piece :=
  { shape := p.shape, position := p.position, rotation := rotation }

/-- `Piece::with_position`. -/
def Piece.with_position (p : Piece) (position : Point) : Piece :=
  { shape := p.shape, rotation := p.rotation, position := position }

/-- `Piece::moved`. -/
def Piece.moved (p : Piece) (d : Direction) : Piece :=
  p.with_position (p.position.moved d)

/-- `Piece::rotated_right`: the clockwise 4-cycle NORMAL → RIGHT → REVERSE →
LEFT → NORMAL. -/
def Piece.rotated_right (p : Piece) : Piece :=
  p.with_rotation (match p.rotation with
    | .NORMAL => .RIGHT
    | .RIGHT => .REVERSE
    | .REVERSE => .LEFT
    | .LEFT => .NORMAL)

/-- `Piece::get`: `TETRIS[shape][rotation][y][x] != 0`. -/
def Piece.get (p : Piece) (y x : Nat) : Bool :=
  ((((TETRIS.getD p.shape.idx []).getD p.rotation.idx []).getD y []).getD x 0) != 0

/-- `Piece::check_limits`: the bounding-box origin lies in
`[0, GAME_WIDTH) × [0, GAME_HEIGHT)`. -/
def Piece.check_limits (p : Piece) : Bool :=
  p.position.x ≥ 0 && p.position.y ≥ 0 &&
    p.position.x < (GAME_WIDTH : Int) && p.position.y < (GAME_HEIGHT : Int)

/-- `enum FieldCell`. -/
inductive FieldCell where
  | Empty
  | Occupied (shape : PieceShape)
deriving DecidableEq, Repr

/-- The playfield array `[[FieldCell; GAME_WIDTH]; GAME_HEIGHT]`, as a total
function; only indices `y < 22, x < 10` are ever accessed by the engine. -/
def Field : Type := Nat → Nat → FieldCell

/-- `struct GameState`, with the external random draw sequence made explicit
(`rand` is the stream of `random::<u64>()` results, `randIdx` how many draws
have been consumed). -/
structure GameState where
  score : Int
  level : Int
  lost : Bool
  delay : Int
  field : Field
  current_piece : Piece
  rand : Nat → Nat
  randIdx : Nat

/-- `GameState::is_occupied`. -/
def GameState.is_occupied (s : GameState) (y x : Nat) : Bool :=
  match s.field y x with
  | .Empty => false
  | .Occupied _ => true

/-- `Piece::check_collision`: `check_limits`, then for every occupied cell of
the 4×4 box, the absolute coordinates are inside the grid and the grid cell is
free.  (`position.x as usize + x` agrees with `position.x + x` over `Int`
because `check_limits` has already established `position.x ≥ 0`, and likewise
for `y`.) -/
def Piece.check_collision (p : Piece) (s : GameState) : Bool :=
  p.check_limits &&
    (List.range 4).all fun y => (List.range 4).all fun x =>
      !(p.get y x) ||
        (decide (p.position.x + x < (GAME_WIDTH : Int)) &&
         decide (p.position.y + y < (GAME_HEIGHT : Int)) &&
         !(s.is_occupied (p.position.y + y).toNat (p.position.x + x).toNat))

/-- `Piece::random`, with the randomness capability explicit: consume the next
`u64` draw of the stream and map `draw % 7` to a shape.  (The `_ =>` branch of
the source is `unreachable!`; here the match is total on `% 7` values.) -/
def shapeOfDraw (n : Nat) : PieceShape :=
  match n % 7 with
  | 0 => .I
  | 1 => .O
  | 2 => .L
  | 3 => .J
  | 4 => .T
  | 5 => .S
  | _ => .Z

/-- The piece built by `Piece::random` from one draw. -/
def Piece.random (draw : Nat) : Piece :=
  { rotation := .NORMAL, shape := shapeOfDraw draw, position := PIECE_SPAWN_POSITION }

/-- `GameState::get` (the `cellAt` query): inside the active piece's 4×4
bounding box an occupied relative cell renders as `Occupied(shape)`, otherwise
the static grid cell is returned.  (`y - p.y as usize` agrees with the `Int`
subtraction below whenever `p.y ≥ 0`, which holds in every reachable state.) -/
def GameState.get (s : GameState) (y x : Nat) : FieldCell :=
  let p := s.current_piece.position
  if p.y ≤ (y : Int) ∧ (y : Int) < p.y + 4 ∧ p.x ≤ (x : Int) ∧ (x : Int) < p.x + 4 then
    if s.current_piece.get ((y : Int) - p.y).toNat ((x : Int) - p.x).toNat then
      .Occupied s.current_piece.shape
    else s.field y x
  else s.field y x

/-- `GameState::move_left`. -/
def GameState.move_left (s : GameState) : GameState :=
  let moved := s.current_piece.moved .LEFT
  if moved.check_collision s then { s with current_piece := moved } else s

/-- `GameState::move_right`. -/
def GameState.move_right (s : GameState) : GameState :=
  let moved := s.current_piece.moved .RIGHT
  if moved.check_collision s then { s with current_piece := moved } else s

/-- `GameState::rotate`. -/
def GameState.rotate (s : GameState) : GameState :=
  let rotated := s.current_piece.rotated_right
  if rotated.check_collision s then { s with current_piece := rotated } else s

/-- The test performed by `GameState::step_down`: does the piece moved one row
down pass the collision check? -/
def GameState.step_down_ok (s : GameState) : Bool :=
  (s.current_piece.moved .DOWN).check_collision s

/-- The state after a successful `GameState::step_down`. -/
def GameState.step_down_state (s : GameState) : GameState :=
  { s with current_piece := s.current_piece.moved .DOWN }

/-- The value written by `timer_reset`.  The source computes
`800 * 0.9f32.powi(level).round() as i32`; by Rust precedence the rounding
applies to `0.9^level` alone and the result is multiplied by 800.  We model
the `f32` power and rounding over `ℚ`: exact real `0.9^level` and the `f32`
value agree on which integer is nearest, because for every integer exponent
the value of `0.9^level` is farther from every half-integer rounding boundary
than the accumulated `f32` relative error (the nearest approaches are
`0.9^6 = 0.531441` and `0.9^7 = 0.4782969`, at distance > 0.02 from 1/2,
while the `powi` relative error stays below 10⁻⁵ there). -/
def delayFormula (level : Int) : Int :=
  800 * round ((9 / 10 : ℚ) ^ level)

/-- What the spec prescribes for the delay: `round(800 × 0.9^level)`.
Modelled from the spec for comparison with `delayFormula` (the source). -/
def delaySpecFormula (level : Int) : Int :=
  round ((800 : ℚ) * (9 / 10 : ℚ) ^ level)

/-- `GameState::timer_reset`. -/
def GameState.timer_reset (s : GameState) : GameState :=
  { s with delay := delayFormula s.level }

/-- Does a full row `y` qualify for elimination: the inner loop of
`eliminate_lines` skips the row iff some cell is `Empty`. -/
def rowFull (f : Field) (y : Nat) : Bool :=
  (List.range GAME_WIDTH).all fun x => f y x != FieldCell.Empty

/-- The shift `for h in (3..y+1).rev() { field[h] = field[h-1] }`: each row
`h` with `3 ≤ h ≤ y` receives the previous value of row `h-1` (the descending
loop reads each source row before overwriting it), other rows are untouched. -/
def shiftRows (f : Field) (y : Nat) : Field :=
  fun r c => if 3 ≤ r ∧ r ≤ y then f (r - 1) c else f r c

/-- One iteration of the `'nextline` scan of `eliminate_lines` at row `y`. -/
def elimStep (acc : Field × Nat) (y : Nat) : Field × Nat :=
  if rowFull acc.1 y then (shiftRows acc.1 y, acc.2 + 1) else acc

/-- The full scan of `eliminate_lines` over rows `0..GAME_HEIGHT`, returning
the new field and the `eliminated` counter. -/
def elimScan (f : Field) : Field × Nat :=
  (List.range GAME_HEIGHT).foldl elimStep (f, 0)

/-- The `points_per_line` table. -/
def points_per_line : List Int := [1, 40, 100, 300, 1200]

/-- `GameState::eliminate_lines`: scan, add the bonus
`points_per_line[eliminated]`, recompute the level.  (The source indexes the
table unchecked; `getD _ 0` is only reached with `eliminated ≤ 4` in the
claims below.) -/
def GameState.eliminate_lines (s : GameState) : GameState :=
  let r := elimScan s.field
  let score := s.score + points_per_line.getD r.2 0
  { s with field := r.1, score := score, level := 1 + score / 700 }

/-- The grid after `piece_bottom`'s stamping loops: every cell reached as
`(position.y + y, position.x + x)` for an occupied relative `(y, x)` becomes
`Occupied(shape)`. -/
def stampField (p : Piece) (f : Field) : Field :=
  fun r c =>
    if (List.range 4).any (fun y => (List.range 4).any fun x =>
        p.get y x && decide ((r : Int) = p.position.y + y) &&
          decide ((c : Int) = p.position.x + x)) then
      .Occupied p.shape
    else f r c

/-- `GameState::add_new_piece`: draw a piece, install it, flag a loss when it
does not fit the (already updated) field. -/
def GameState.add_new_piece (s : GameState) : GameState :=
  let s' := { s with current_piece := Piece.random (s.rand s.randIdx),
                     randIdx := s.randIdx + 1 }
  if s'.current_piece.check_collision s' then s' else { s' with lost := true }

/-- `GameState::piece_bottom`: stamp the piece, eliminate lines, spawn. -/
def GameState.piece_bottom (s : GameState) : GameState :=
  ({ s with field := stampField s.current_piece s.field }).eliminate_lines.add_new_piece

/-- `GameState::move_down`: one `step_down`, locking via `piece_bottom` when
the descent is blocked. -/
def GameState.move_down (s : GameState) : GameState :=
  if s.step_down_ok then s.step_down_state else s.piece_bottom

/-- The `while self.step_down() {}` loop of `move_bottom`. -/
def GameState.drop_loop (s : GameState) : GameState :=
  if h : s.step_down_ok then s.step_down_state.drop_loop else s
termination_by (GAME_HEIGHT - s.current_piece.position.y).toNat
decreasing_by
  simp only [GameState.step_down_ok, Piece.check_collision, Bool.and_eq_true,
    Piece.check_limits, Piece.moved, Piece.with_position, Point.moved,
    decide_eq_true_eq] at h
  simp only [GameState.step_down_state, Piece.moved, Piece.with_position, Point.moved]
  omega

/-- `GameState::move_bottom`: drop to the rest position, then lock once. -/
def GameState.move_bottom (s : GameState) : GameState :=
  s.drop_loop.piece_bottom

/-- Repeatedly calling `move_down` until a lock occurs: each round calls
`move_down`; the loop stops right after the call in which the descent was
blocked (the call that locked). -/
def GameState.soft_drop_until_lock (s : GameState) : GameState :=
  if h : s.step_down_ok then s.move_down.soft_drop_until_lock else s.move_down
termination_by (GAME_HEIGHT - s.current_piece.position.y).toNat
decreasing_by
  simp only [GameState.move_down, h, if_pos]
  simp only [GameState.step_down_ok, Piece.check_collision, Bool.and_eq_true,
    Piece.check_limits, Piece.moved, Piece.with_position, Point.moved,
    decide_eq_true_eq] at h
  simp only [GameState.step_down_state, Piece.moved, Piece.with_position, Point.moved]
  omega

/-- `GameState::clock_tick`. -/
def GameState.clock_tick (s : GameState) : GameState :=
  let s' := { s with delay := s.delay - 50 }
  if s'.delay = 0 then s'.timer_reset.move_down else s'

/-- `GameState::is_lost`. -/
def GameState.is_lost (s : GameState) : Bool := s.lost

/-- `GameState::new`, parameterised by the random stream: empty field, score
0, level 1, one spawned piece, then `timer_reset`. -/
def GameState.new (rand : Nat → Nat) : GameState :=
  GameState.timer_reset
    { field := fun _ _ => .Empty
      score := 0
      level := 1
      delay := 0
      current_piece := Piece.random (rand 0)
      lost := false
      rand := rand
      randIdx := 1 }

/-- The states reachable from a freshly constructed `GameState` by the public
command surface (`move_left`, `move_right`, `move_down`, `move_bottom`,
`rotate`, `clock_tick`). -/
inductive Reachable : GameState → Prop where
  | new (rand : Nat → Nat) : Reachable (GameState.new rand)
  | move_left {s} : Reachable s → Reachable s.move_left
  | move_right {s} : Reachable s → Reachable s.move_right
  | move_down {s} : Reachable s → Reachable s.move_down
  | move_bottom {s} : Reachable s → Reachable s.move_bottom
  | rotate {s} : Reachable s → Reachable s.rotate
  | clock_tick {s} : Reachable s → Reachable s.clock_tick

/-- A fixed random stream used by concrete witnesses (every draw is 0, so
every spawned piece is an I piece). -/
def rand0 : Nat → Nat := fun _ => 0

/-- A freshly constructed game used by concrete witnesses. -/
def state0 : GameState := GameState.new rand0

/-- A fresh game whose grid has row 2 (inside the top spawn buffer) fully
occupied; used by concrete witnesses. -/
def stateRow2 : GameState :=
  { state0 with field := fun y _ =>
      if y = 2 then FieldCell.Occupied PieceShape.O else FieldCell.Empty }

/- Helper lemmas shared by the claim theorems. -/

/-- The collision test only reads the field, so replacing the current piece
of the state does not change it. -/
theorem check_collision_update_piece (p q : Piece) (s : GameState) :
    p.check_collision { s with current_piece := q } = p.check_collision s := rfl

/-- The collision test ignores the delay field. -/
theorem check_collision_update_delay (p : Piece) (s : GameState) (d : Int) :
    p.check_collision { s with delay := d } = p.check_collision s := rfl

/-- The collision test ignores the lost flag. -/
theorem check_collision_update_lost (p : Piece) (s : GameState) (b : Bool) :
    p.check_collision { s with lost := b } = p.check_collision s := rfl

/-- `rotated_right` leaves the shape untouched. -/
theorem rotated_right_shape (p : Piece) : p.rotated_right.shape = p.shape := rfl

/-- `rotated_right` leaves the position untouched. -/
theorem rotated_right_position (p : Piece) : p.rotated_right.position = p.position := rfl

/-- Four clockwise rotations are the identity on pieces. -/
theorem rotated_right_four (p : Piece) :
    p.rotated_right.rotated_right.rotated_right.rotated_right = p := by
  rcases p with ⟨sh, rot, pos⟩
  cases rot <;> rfl

/-- Claim C5: `move_left`, `move_right` and `rotate` either perform their
one-step transition — and the resulting piece then passes the collision test
against the unchanged grid — or, when the candidate placement fails the test,
leave the entire state (piece, grid, score, level, delay, loss flag, random
cursor) unchanged. -/
theorem moves_guarded (s : GameState) :
    (((s.current_piece.moved .LEFT).check_collision s = true →
        s.move_left = { s with current_piece := s.current_piece.moved .LEFT } ∧
        s.move_left.current_piece.check_collision s.move_left = true) ∧
      ((s.current_piece.moved .LEFT).check_collision s = false → s.move_left = s)) ∧
    (((s.current_piece.moved .RIGHT).check_collision s = true →
        s.move_right = { s with current_piece := s.current_piece.moved .RIGHT } ∧
        s.move_right.current_piece.check_collision s.move_right = true) ∧
      ((s.current_piece.moved .RIGHT).check_collision s = false → s.move_right = s)) ∧
    ((s.current_piece.rotated_right.check_collision s = true →
        s.rotate = { s with current_piece := s.current_piece.rotated_right } ∧
        s.rotate.current_piece.check_collision s.rotate = true) ∧
      (s.current_piece.rotated_right.check_collision s = false → s.rotate = s)) := by
  have key : ∀ cand : Piece, ∀ t : GameState,
      t = (if cand.check_collision s then { s with current_piece := cand } else s) →
      (cand.check_collision s = true →
        t = { s with current_piece := cand } ∧
        t.current_piece.check_collision t = true) ∧
      (cand.check_collision s = false → t = s) := by
    intro cand t ht
    constructor
    · intro hacc
      rw [ht, if_pos hacc]
      refine ⟨rfl, ?_⟩
      rw [check_collision_update_piece]
      exact hacc
    · intro hrej
      rw [ht, if_neg (by simp [hrej])]
  exact ⟨key _ _ rfl, key _ _ rfl, key _ _ rfl⟩

/-- Witness for C5: on a fresh board the left move is accepted and moves the
piece, and a fresh board whose piece is wedged at the left wall rejects the
move and is left untouched. -/
theorem moves_guarded_witness :
    state0.move_left = { state0 with current_piece := state0.current_piece.moved .LEFT } ∧
    { state0 with current_piece := { state0.current_piece with position := { x := 0, y := 0 } } }.move_left
      = { state0 with current_piece := { state0.current_piece with position := { x := 0, y := 0 } } } :=
  ⟨((moves_guarded state0).1.1 (by decide)).1,
   (moves_guarded _).1.2 (by decide)⟩

/-- Claim C9: when all four successive clockwise rotations pass the collision
test (an open area), rotating four times returns the state — in particular the
piece's rotation and position — to exactly its original value; and a single
`rotated_right` changes only the rotation field, never shape or position. -/
theorem rotate_four_cycle (s : GameState)
    (h1 : s.current_piece.rotated_right.check_collision s = true)
    (h2 : s.current_piece.rotated_right.rotated_right.check_collision s = true)
    (h3 : s.current_piece.rotated_right.rotated_right.rotated_right.check_collision s = true)
    (h4 : s.current_piece.rotated_right.rotated_right.rotated_right.rotated_right.check_collision
        s = true) :
    s.rotate.rotate.rotate.rotate = s ∧
    (∀ p : Piece, p.rotated_right.shape = p.shape ∧ p.rotated_right.position = p.position) := by
  refine ⟨?_, fun p => ⟨rotated_right_shape p, rotated_right_position p⟩⟩
  have e1 : s.rotate = { s with current_piece := s.current_piece.rotated_right } := by
    rw [GameState.rotate, if_pos h1]
  have e2 : s.rotate.rotate =
      { s with current_piece := s.current_piece.rotated_right.rotated_right } := by
    rw [e1, GameState.rotate, check_collision_update_piece, if_pos h2]
  have e3 : s.rotate.rotate.rotate =
      { s with current_piece :=
          s.current_piece.rotated_right.rotated_right.rotated_right } := by
    rw [e2, GameState.rotate, check_collision_update_piece, if_pos h3]
  rw [e3, GameState.rotate, check_collision_update_piece, if_pos h4,
    rotated_right_four]

/-- Witness for C9: on a fresh empty board all four rotations of the spawned
piece fit, and four rotations restore the state. -/
theorem rotate_four_cycle_witness : state0.rotate.rotate.rotate.rotate = state0 :=
  (rotate_four_cycle state0 (by decide) (by decide) (by decide) (by decide)).1

/-- Claim C7: for in-range coordinates, `get` returns `Occupied(shape)` when
the coordinate lies inside the current piece's 4×4 bounding box and the piece
occupies that relative cell, and the static grid cell otherwise.  The grid is
never modified: in the embedding `get` is a pure function of the state (the
Rust method takes `&self`).  The position-sign hypotheses reflect the `as
usize` casts of the source, which are value-preserving exactly there; they
hold in every reachable state. -/
theorem cell_get_spec (s : GameState) (y x : Nat)
    (hy : y < GAME_HEIGHT) (hx : x < GAME_WIDTH)
    (hpy : 0 ≤ s.current_piece.position.y) (hpx : 0 ≤ s.current_piece.position.x) :
    ((s.current_piece.position.y ≤ (y : Int) ∧
      (y : Int) < s.current_piece.position.y + 4 ∧
      s.current_piece.position.x ≤ (x : Int) ∧
      (x : Int) < s.current_piece.position.x + 4) →
      (s.current_piece.get ((y : Int) - s.current_piece.position.y).toNat
          ((x : Int) - s.current_piece.position.x).toNat = true →
        s.get y x = .Occupied s.current_piece.shape) ∧
      (s.current_piece.get ((y : Int) - s.current_piece.position.y).toNat
          ((x : Int) - s.current_piece.position.x).toNat = false →
        s.get y x = s.field y x)) ∧
    (¬(s.current_piece.position.y ≤ (y : Int) ∧
      (y : Int) < s.current_piece.position.y + 4 ∧
      s.current_piece.position.x ≤ (x : Int) ∧
      (x : Int) < s.current_piece.position.x + 4) →
      s.get y x = s.field y x) := by
  refine ⟨fun hin => ⟨fun hocc => ?_, fun hnocc => ?_⟩, fun hout => ?_⟩
  · rw [GameState.get, if_pos hin, if_pos hocc]
  · rw [GameState.get, if_pos hin, if_neg (by simp [hnocc])]
  · rw [GameState.get, if_neg hout]

/-- Witness for C7: on a fresh board, cell (0,3) is the piece's top-left
occupied cell and renders as the piece, while cell (10,0) is outside the box
and renders from the (empty) grid. -/
theorem cell_get_spec_witness :
    state0.get 0 3 = .Occupied state0.current_piece.shape ∧
    state0.get 10 0 = state0.field 10 0 :=
  ⟨((cell_get_spec state0 0 3 (by decide) (by decide) (by decide) (by decide)).1
      (by decide)).1 (by decide),
   (cell_get_spec state0 10 0 (by decide) (by decide) (by decide) (by decide)).2
      (by decide)⟩

/-- Claim C6: `clock_tick` decrements the delay counter by the fixed quantum
50; exactly when the decremented counter is zero, the delay is reset via the
level formula and one `move_down` is forced; when the decrement misses zero
(also when it crosses below it), the only change is the decremented counter —
no forced descent happens. -/
theorem clock_tick_spec (s : GameState) :
    (s.delay - 50 = 0 →
      s.clock_tick = ({ s with delay := delayFormula s.level }).move_down) ∧
    (s.delay - 50 ≠ 0 → s.clock_tick = { s with delay := s.delay - 50 }) := by
  constructor
  · intro h
    rw [GameState.clock_tick]
    simp only [h, if_pos]
    rfl
  · intro h
    rw [GameState.clock_tick]
    simp only [if_neg h]

/-- Witness for C6: with the counter at 50 a tick forces a descent; with the
counter at 70 (the quantum does not divide it) the tick only decrements, and
with the counter at 30 the crossing below zero also forces nothing. -/
theorem clock_tick_spec_witness :
    { state0 with delay := 50 }.clock_tick
      = ({ state0 with delay := delayFormula state0.level }).move_down ∧
    { state0 with delay := 70 }.clock_tick = { state0 with delay := 20 } ∧
    { state0 with delay := 30 }.clock_tick = { state0 with delay := -20 } :=
  ⟨(clock_tick_spec _).1 (by decide),
   (clock_tick_spec { state0 with delay := 70 }).2 (by decide),
   (clock_tick_spec { state0 with delay := 30 }).2 (by decide)⟩

/-- Claim C2 (refuting theorem): `timer_reset` always writes
`delayFormula level = 800 * round(0.9 ^ level)` — by Rust operator precedence
the rounding applies to `0.9 ^ level` alone — and NOT the claimed
`round(800 × 0.9 ^ level)`.  On the freshly constructed board (level 1) the
written value is 800 where the claim demands 720; the value is the constant
800 for levels 1, 2 and 6 (so it does not strictly decrease), and it
collapses to 0 from level 7 on. -/
theorem timer_reset_code_bug :
    (∀ s : GameState, s.timer_reset.delay = delayFormula s.level) ∧
    state0.level = 1 ∧ state0.delay = 800 ∧
    delayFormula 1 = 800 ∧ delayFormula 2 = 800 ∧ delayFormula 6 = 800 ∧
    delayFormula 7 = 0 ∧
    delaySpecFormula 1 = 720 ∧ delaySpecFormula 2 = 648 := by
  refine ⟨fun s => rfl, rfl, ?_, ?_, ?_, ?_, ?_, ?_, ?_⟩
  · show delayFormula 1 = 800
    unfold delayFormula; norm_num [round_eq]
  · unfold delayFormula; norm_num [round_eq]
  · unfold delayFormula; norm_num [round_eq]
  · unfold delayFormula; norm_num [round_eq]
  · unfold delayFormula; norm_num [round_eq]
  · unfold delaySpecFormula; norm_num [round_eq]
  · unfold delaySpecFormula; norm_num [round_eq]

/-- Claim C1: `move_bottom` (hard drop) is state-for-state equal to calling
`move_down` (soft drop) repeatedly until the call that locks: same grid, same
score, level, loss flag, delay, and — since both consume exactly one random
draw, at the single final lock — the same subsequent spawned piece.  The
right-hand side locks exactly once, at the final rest position, by
construction of `soft_drop_until_lock`. -/
theorem move_bottom_eq_repeated_move_down (s : GameState) :
    s.move_bottom = s.soft_drop_until_lock := by
  show s.drop_loop.piece_bottom = s.soft_drop_until_lock
  induction s using GameState.drop_loop.induct with
  | case1 s h ih =>
      rw [GameState.drop_loop, dif_pos h, GameState.soft_drop_until_lock, dif_pos h]
      have hmd : s.move_down = s.step_down_state := by
        rw [GameState.move_down, if_pos h]
      rw [hmd]
      exact ih
  | case2 s h =>
      rw [GameState.drop_loop, dif_neg h, GameState.soft_drop_until_lock, dif_neg h,
        GameState.move_down, if_neg h]

/-- The `while step_down` loop only moves the piece; it never touches the
loss flag. -/
theorem drop_loop_lost (s : GameState) : s.drop_loop.lost = s.lost := by
  induction s using GameState.drop_loop.induct with
  | case1 s h ih => rw [GameState.drop_loop, dif_pos h]; exact ih
  | case2 s h => rw [GameState.drop_loop, dif_neg h]

/-- `add_new_piece` leaves the loss flag true iff it was already true or the
freshly spawned piece fails the collision test (the test only reads the
field, so testing against `s` is the same as against the updated state). -/
theorem add_new_piece_lost (s : GameState) :
    s.add_new_piece.lost
      = (s.lost || !((Piece.random (s.rand s.randIdx)).check_collision s)) := by
  by_cases h : (Piece.random (s.rand s.randIdx)).check_collision s = true
  · have e : s.add_new_piece
        = { s with current_piece := Piece.random (s.rand s.randIdx),
                   randIdx := s.randIdx + 1 } := by
      rw [GameState.add_new_piece]
      split
      · rfl
      · next hc => exact absurd h hc
    rw [e, h]
    simp
  · have hb : (Piece.random (s.rand s.randIdx)).check_collision s = false :=
      Bool.eq_false_iff.mpr h
    have e : s.add_new_piece
        = { s with current_piece := Piece.random (s.rand s.randIdx),
                   randIdx := s.randIdx + 1, lost := true } := by
      rw [GameState.add_new_piece]
      split
      · next hc =>
          have hc' : (Piece.random (s.rand s.randIdx)).check_collision s = true := hc
          rw [hb] at hc'
          exact absurd hc' Bool.false_ne_true
      · rfl
    rw [e, hb]
    simp

/-- A lock never clears the loss flag. -/
theorem piece_bottom_lost (s : GameState) (h : s.lost = true) :
    s.piece_bottom.lost = true := by
  show (({ s with field := stampField s.current_piece s.field }).eliminate_lines).add_new_piece.lost = true
  rw [add_new_piece_lost]
  have e : (({ s with field := stampField s.current_piece s.field }).eliminate_lines).lost
      = s.lost := rfl
  rw [e, h]
  simp

/-- `move_down` never clears the loss flag. -/
theorem move_down_lost (s : GameState) (h : s.lost = true) :
    s.move_down.lost = true := by
  rw [GameState.move_down]
  split
  · exact h
  · exact piece_bottom_lost s h

/-- Claim C8: the loss flag, once true, is never cleared by any of the public
operations; `move_left`, `move_right` and `rotate` never change it at all,
and the only writer is the spawn step of the lock sequence
(`add_new_piece`), which sets it exactly when the freshly drawn piece fails
the collision test. -/
theorem lost_flag_monotone (s : GameState) :
    s.move_left.lost = s.lost ∧ s.move_right.lost = s.lost ∧ s.rotate.lost = s.lost ∧
    (s.lost = true → s.move_down.lost = true) ∧
    (s.lost = true → s.move_bottom.lost = true) ∧
    (s.lost = true → s.clock_tick.lost = true) ∧
    s.add_new_piece.lost
      = (s.lost || !((Piece.random (s.rand s.randIdx)).check_collision s)) := by
  refine ⟨?_, ?_, ?_, move_down_lost s, fun h => ?_, fun h => ?_, add_new_piece_lost s⟩
  · rw [GameState.move_left]; split <;> rfl
  · rw [GameState.move_right]; split <;> rfl
  · rw [GameState.rotate]; split <;> rfl
  · exact piece_bottom_lost _ (by rw [drop_loop_lost]; exact h)
  · rw [GameState.clock_tick]
    split
    · exact move_down_lost _ h
    · exact h

/-- Witness for C8: a lost board stays lost through a forced tick descent, a
soft drop and a hard drop. -/
theorem lost_flag_monotone_witness :
    { state0 with lost := true }.move_down.lost = true ∧
    { state0 with lost := true }.move_bottom.lost = true ∧
    { state0 with lost := true }.clock_tick.lost = true :=
  ⟨(lost_flag_monotone _).2.2.2.1 rfl,
   (lost_flag_monotone _).2.2.2.2.1 rfl,
   (lost_flag_monotone _).2.2.2.2.2.1 rfl⟩

/-- Rows are judged full cell by cell, so two fields agreeing on a row are
judged alike on it. -/
theorem rowFull_congr {f g : Field} {y : Nat} (h : ∀ c, f y c = g y c) :
    rowFull f y = rowFull g y := by
  unfold rowFull
  congr 1
  funext x
  rw [h x]

/-- Invariants of the elimination scan over the first `n` rows: rows not yet
scanned and the three spawn-buffer rows are exactly as in the input field,
and the counter counts the rows of the input field that are full. -/
theorem elim_foldl_spec (f : Field) (n : Nat) :
    (∀ r, n ≤ r → ∀ c, ((List.range n).foldl elimStep (f, 0)).1 r c = f r c) ∧
    (∀ r, r < 3 → ∀ c, ((List.range n).foldl elimStep (f, 0)).1 r c = f r c) ∧
    ((List.range n).foldl elimStep (f, 0)).2
      = (List.range n).countP fun y => rowFull f y := by
  induction n with
  | zero =>
      exact ⟨fun r _ c => rfl, fun r _ c => rfl, rfl⟩
  | succ n ih =>
      obtain ⟨h1, h2, h3⟩ := ih
      rw [List.range_succ, List.foldl_append, List.countP_append,
        List.foldl_cons, List.foldl_nil, List.countP_cons, List.countP_nil]
      have hrow : rowFull ((List.range n).foldl elimStep (f, 0)).1 n = rowFull f n :=
        rowFull_congr fun c => h1 n le_rfl c
      by_cases hfull : rowFull f n = true
      · have estep : elimStep ((List.range n).foldl elimStep (f, 0)) n
            = (shiftRows ((List.range n).foldl elimStep (f, 0)).1 n,
               ((List.range n).foldl elimStep (f, 0)).2 + 1) := by
          rw [elimStep, hrow, hfull]
          simp
        rw [estep]
        refine ⟨fun r hr c => ?_, fun r hr c => ?_, ?_⟩
        · show shiftRows _ n r c = f r c
          unfold shiftRows
          rw [if_neg (by omega)]
          exact h1 r (by omega) c
        · show shiftRows _ n r c = f r c
          unfold shiftRows
          rw [if_neg (by omega)]
          exact h2 r hr c
        · simp [h3, hfull]
      · have hfalse : rowFull f n = false := Bool.eq_false_iff.mpr hfull
        have estep : elimStep ((List.range n).foldl elimStep (f, 0)) n
            = (List.range n).foldl elimStep (f, 0) := by
          rw [elimStep, hrow, hfalse]
          simp
        rw [estep]
        exact ⟨fun r hr c => h1 r (by omega) c, h2, by simp [h3, hfalse]⟩

/-- The `eliminated` counter of `eliminate_lines` equals the number of full
rows of the field it scans. -/
theorem elimScan_count (f : Field) :
    (elimScan f).2 = (List.range GAME_HEIGHT).countP fun y => rowFull f y := by
  rw [elimScan]
  exact (elim_foldl_spec f GAME_HEIGHT).2.2

/-- The elimination scan never rewrites the three spawn-buffer rows. -/
theorem elimScan_top_rows (f : Field) (r : Nat) (hr : r < 3) (c : Nat) :
    (elimScan f).1 r c = f r c := by
  rw [elimScan]
  exact (elim_foldl_spec f GAME_HEIGHT).2.1 r hr c

/-- `add_new_piece` when the spawned piece fits (the collision test reads
only the field, so testing against `s` equals testing against the updated
state). -/
theorem add_new_piece_pos (s : GameState)
    (h : (Piece.random (s.rand s.randIdx)).check_collision s = true) :
    s.add_new_piece = { s with current_piece := Piece.random (s.rand s.randIdx),
                               randIdx := s.randIdx + 1 } := by
  rw [GameState.add_new_piece]
  split
  · rfl
  · next hc => exact absurd h hc

/-- `add_new_piece` when the spawned piece collides: the loss flag goes up,
nothing else changes beyond the spawn itself. -/
theorem add_new_piece_neg (s : GameState)
    (h : (Piece.random (s.rand s.randIdx)).check_collision s = false) :
    s.add_new_piece = { s with current_piece := Piece.random (s.rand s.randIdx),
                               randIdx := s.randIdx + 1, lost := true } := by
  rw [GameState.add_new_piece]
  split
  · next hc =>
      have hc' : (Piece.random (s.rand s.randIdx)).check_collision s = true := hc
      rw [h] at hc'
      exact absurd hc' Bool.false_ne_true
  · rfl

/-- `add_new_piece` does not touch the score. -/
theorem add_new_piece_score (s : GameState) : s.add_new_piece.score = s.score := by
  rw [GameState.add_new_piece]; split <;> rfl

/-- `add_new_piece` does not touch the level. -/
theorem add_new_piece_level (s : GameState) : s.add_new_piece.level = s.level := by
  rw [GameState.add_new_piece]; split <;> rfl

/-- `add_new_piece` does not touch the field. -/
theorem add_new_piece_field (s : GameState) : s.add_new_piece.field = s.field := by
  rw [GameState.add_new_piece]; split <;> rfl

/-- After a lock the score has grown by the bonus indexed by the eliminated
counter. -/
theorem piece_bottom_score (s : GameState) :
    s.piece_bottom.score
      = s.score + points_per_line.getD (elimScan (stampField s.current_piece s.field)).2 0 := by
  rw [GameState.piece_bottom, add_new_piece_score]
  rfl

/-- After a lock the level is recomputed from the just-updated score. -/
theorem piece_bottom_level (s : GameState) :
    s.piece_bottom.level = 1 + s.piece_bottom.score / 700 := by
  rw [GameState.piece_bottom, add_new_piece_level, add_new_piece_score]
  rfl

set_option maxRecDepth 8000 in
/-- After a lock the field is the eliminated stamped field. -/
theorem piece_bottom_field (s : GameState) :
    s.piece_bottom.field = (elimScan (stampField s.current_piece s.field)).1 := by
  rw [GameState.piece_bottom, add_new_piece_field]
  rfl

/-- Claim C3: a lock (`piece_bottom`) in which exactly `k ≤ 4` rows of the
grid are fully occupied after stamping the piece adds exactly
`points_per_line[k]` (1, 40, 100, 300, 1200 for k = 0..4 — so even k = 0
grants one point) to the score, and immediately afterwards the level equals
`1 + score / 700` with integer division. -/
theorem lock_scoring (s : GameState) (k : Nat) (hk : k ≤ 4)
    (h : ((List.range GAME_HEIGHT).countP fun y =>
        rowFull (stampField s.current_piece s.field) y) = k) :
    s.piece_bottom.score = s.score + points_per_line.getD k 0 ∧
    s.piece_bottom.level = 1 + s.piece_bottom.score / 700 := by
  have e2 : (elimScan (stampField s.current_piece s.field)).2 = k := by
    rw [elimScan_count]
    exact h
  exact ⟨by rw [piece_bottom_score, e2], piece_bottom_level s⟩

/-- Witness for C3: locking the fresh board's piece (no full row, k = 0)
grants exactly 1 point and leaves the level at `1 + score / 700`. -/
theorem lock_scoring_witness :
    ((List.range GAME_HEIGHT).countP fun y =>
        rowFull (stampField state0.current_piece state0.field) y) = 0 ∧
    (state0.piece_bottom.score = state0.score + points_per_line.getD 0 0 ∧
     state0.piece_bottom.level = 1 + state0.piece_bottom.score / 700) :=
  ⟨by decide, lock_scoring state0 0 (by decide) (by decide)⟩

/-- Claim C10: a fully occupied row with index `y < 3` is counted by the
elimination scan — it raises the `eliminated` counter and hence contributes
to the score bonus — but the downward shift, covering only row indices 3
through the qualifying row (an empty range here), rewrites no cell of the
top three rows; the row therefore survives the whole lock still fully
occupied, and the same applies verbatim at every subsequent lock, the row
never being refilled. -/
theorem buried_top_row (s : GameState) (y : Nat) (h3 : y < 3)
    (hfull : rowFull (stampField s.current_piece s.field) y = true) :
    (∀ r, r < 3 → ∀ c,
      (elimScan (stampField s.current_piece s.field)).1 r c
        = stampField s.current_piece s.field r c) ∧
    1 ≤ (elimScan (stampField s.current_piece s.field)).2 ∧
    rowFull s.piece_bottom.field y = true := by
  refine ⟨fun r hr c => elimScan_top_rows _ r hr c, ?_, ?_⟩
  · rw [elimScan_count]
    have hpos : 0 < (List.range GAME_HEIGHT).countP fun yy =>
        rowFull (stampField s.current_piece s.field) yy :=
      List.countP_pos_iff.mpr ⟨y, List.mem_range.mpr (by simp only [GAME_HEIGHT]; omega), hfull⟩
    omega
  · rw [piece_bottom_field, rowFull_congr fun c => elimScan_top_rows _ y h3 c]
    exact hfull

/-- Witness for C10: with row 2 fully occupied, a lock counts at least one
eliminated row yet row 2 is still fully occupied afterwards. -/
theorem buried_top_row_witness :
    2 < 3 ∧
    rowFull (stampField stateRow2.current_piece stateRow2.field) 2 = true ∧
    (1 ≤ (elimScan (stampField stateRow2.current_piece stateRow2.field)).2 ∧
     rowFull stateRow2.piece_bottom.field 2 = true) :=
  ⟨by decide, by decide, (buried_top_row stateRow2 2 (by decide) (by decide)).2⟩

/-- If the spawn of `add_new_piece` left the loss flag down, the new piece
passes the collision test against the new state. -/
theorem add_new_piece_fits (s : GameState) (h : s.add_new_piece.lost = false) :
    s.add_new_piece.current_piece.check_collision s.add_new_piece = true := by
  by_cases hc : (Piece.random (s.rand s.randIdx)).check_collision s = true
  · rw [add_new_piece_pos s hc]
    exact hc
  · exfalso
    rw [add_new_piece_lost, Bool.eq_false_iff.mpr hc] at h
    simp at h

/-- After any lock, a loss flag still down means the (fresh) piece fits. -/
theorem piece_bottom_fits (s : GameState) (h : s.piece_bottom.lost = false) :
    s.piece_bottom.current_piece.check_collision s.piece_bottom = true :=
  add_new_piece_fits _ h

/-- `move_left` preserves the piece-fits invariant. -/
theorem inv_move_left (s : GameState)
    (ih : s.lost = false → s.current_piece.check_collision s = true) :
    s.move_left.lost = false → s.move_left.current_piece.check_collision s.move_left = true := by
  rw [GameState.move_left]
  split
  · next hc => exact fun _ => hc
  · exact ih

/-- `move_right` preserves the piece-fits invariant. -/
theorem inv_move_right (s : GameState)
    (ih : s.lost = false → s.current_piece.check_collision s = true) :
    s.move_right.lost = false →
      s.move_right.current_piece.check_collision s.move_right = true := by
  rw [GameState.move_right]
  split
  · next hc => exact fun _ => hc
  · exact ih

/-- `rotate` preserves the piece-fits invariant. -/
theorem inv_rotate (s : GameState)
    (ih : s.lost = false → s.current_piece.check_collision s = true) :
    s.rotate.lost = false → s.rotate.current_piece.check_collision s.rotate = true := by
  rw [GameState.rotate]
  split
  · next hc => exact fun _ => hc
  · exact ih

/-- `move_down` establishes the piece-fits invariant outright: a successful
step leaves the just-validated piece, a blocked one locks and spawns. -/
theorem inv_move_down (s : GameState) :
    s.move_down.lost = false →
      s.move_down.current_piece.check_collision s.move_down = true := by
  rw [GameState.move_down]
  split
  · next hc => exact fun _ => hc
  · exact piece_bottom_fits s

/-- `move_bottom` establishes the piece-fits invariant outright. -/
theorem inv_move_bottom (s : GameState) :
    s.move_bottom.lost = false →
      s.move_bottom.current_piece.check_collision s.move_bottom = true :=
  piece_bottom_fits s.drop_loop

/-- `clock_tick` preserves the piece-fits invariant. -/
theorem inv_clock_tick (s : GameState)
    (ih : s.lost = false → s.current_piece.check_collision s = true) :
    s.clock_tick.lost = false →
      s.clock_tick.current_piece.check_collision s.clock_tick = true := by
  rw [GameState.clock_tick]
  split
  · exact inv_move_down _
  · exact ih

/-- On the fresh empty grid every spawned shape fits at the spawn point. -/
theorem new_fits (rand : Nat → Nat) :
    (GameState.new rand).current_piece.check_collision (GameState.new rand) = true := by
  have h : ∀ sh : PieceShape,
      (Piece.mk sh .NORMAL PIECE_SPAWN_POSITION).check_collision (GameState.new rand)
        = true := by
    intro sh
    cases sh <;> rfl
  exact h (shapeOfDraw (rand 0))

/-- Claim C4: in every state reachable from a freshly constructed board by
the public operations, if the loss flag is down then the current piece
passes the full collision test against the static grid. -/
theorem reachable_fits (s : GameState) (hr : Reachable s) (h : s.lost = false) :
    s.current_piece.check_collision s = true := by
  revert h
  induction hr with
  | new rand => exact fun _ => new_fits rand
  | move_left _ ih => exact inv_move_left _ ih
  | move_right _ ih => exact inv_move_right _ ih
  | move_down _ _ => exact inv_move_down _
  | move_bottom _ _ => exact inv_move_bottom _
  | rotate _ ih => exact inv_rotate _ ih
  | clock_tick _ ih => exact inv_clock_tick _ ih

/-- Witness for C4: the freshly constructed board is reachable, not lost,
and its piece passes the collision test. -/
theorem reachable_fits_witness :
    state0.lost = false ∧ state0.current_piece.check_collision state0 = true :=
  ⟨rfl, reachable_fits state0 (Reachable.new rand0) rfl⟩

end Tetris
